import Mathlib

/-
  Verification of the SUI stake-extraction tool.

  The scraping iteration (stakesui.py) is embedded directly: its pure
  string-processing core (keyword search, amount-window regex scan,
  whitespace trimming) is translated function by function, and its
  effectful parts (the Selenium driver, the Streamlit UI) are modelled
  by an explicit environment/outcome record and an event trace.
  The later RPC-based iteration described by the specification
  (transaction classifier, batch orchestrator, base-unit conversion)
  is not present in the source tree; those parts are modelled from the
  spec and marked as such in their doc comments.
-/

/-! ## Character and string utilities (Python semantics) -/

/-- Per-character model of Python str.lower (ASCII range). -/
def lowerL (l : List Char) : List Char := l.map Char.toLower

/-- String wrapper for lowerL. -/
def lowerS (s : String) : String := String.mk (lowerL s.data)

/-- Python whitespace set used by str.strip (ASCII core). -/
def isPyWs (c : Char) : Bool :=
  c = ' ' || c = '\t' || c = '\n' || c = '\r' || c = '\x0b' || c = '\x0c'

/-- Left strip: drop leading Python whitespace. -/
def pyStripL (l : List Char) : List Char := l.dropWhile isPyWs

/-- Right strip: drop trailing Python whitespace. -/
def pyStripR (l : List Char) : List Char := (l.reverse.dropWhile isPyWs).reverse

/-- Model of Python str.strip(): remove leading and trailing whitespace. -/
def pyStrip (s : String) : String := String.mk (pyStripR (pyStripL s.data))

/-- Bounded substring test: needle occurs somewhere in hay.  This models the
Python expression a in b on strings (after the caller lowers both sides). -/
def substrB (needle hay : List Char) : Bool :=
  (List.range (hay.length + 1)).any (fun n => needle.isPrefixOf (hay.drop n))

/-- Model of stakesui.py line 121, the pagination stop condition:
target_keyword.lower() in driver.page_source.lower(). -/
def pageHasKeyword (kw src : String) : Bool :=
  substrB (lowerL kw.data) (lowerL src.data)

/-! ## re.finditer occurrence scanner

Models re.finditer(re.escape(kw), text, re.IGNORECASE): the list of start
positions of leftmost, non-overlapping occurrences of the literal pattern.
The scanner advances by the match length on a hit (one position on an empty
pattern, matching Python's empty-match advance) and by one on a miss.
Written with an explicit fuel argument so that it is structural and hence
evaluates inside the kernel. -/

def occGo (pat : List Char) : Nat → List Char → Nat → List Nat
  | 0, _, _ => []
  | _ + 1, [], i => if pat.isEmpty then [i] else []
  | fuel + 1, c :: rest, i =>
    if pat.isPrefixOf (c :: rest) then
      i :: occGo pat fuel (List.drop (pat.length - 1) rest) (i + max pat.length 1)
    else
      occGo pat fuel rest (i + 1)

/-- Occurrence positions of pat in l, starting index i. -/
def occ (pat l : List Char) (i : Nat) : List Nat := occGo pat (l.length + 1) l i

/-- Case-insensitive occurrence positions: stakesui.py line 137,
keyword_matches = [m.start() for m in re.finditer(re.escape(kw), page_text, re.IGNORECASE)]. -/
def occCI (kw text : List Char) : List Nat := occ (lowerL kw) (lowerL text) 0

/-- The scraper considers the keyword found when the occurrence list is
nonempty (stakesui.py line 139: if not keyword_matches). -/
def kwFound (kw text : String) : Bool := !(occCI kw.data text.data).isEmpty

/-! ## Amount regex scan

Models list(re.finditer(r"([\-\d\.,]+)\s*SUI", chunk, re.IGNORECASE)):
the captured groups of leftmost, non-overlapping matches.  Because the
character class, the whitespace class, and the literal SUI are pairwise
disjoint character sets, greedy matching without backtracking is exact. -/

/-- Characters of the class [\-\d\.,]. -/
def amtClassChar (c : Char) : Bool :=
  c = '-' || c.isDigit || c = '.' || c = ','

/-- Does the text start with SUI, case-insensitively? -/
def suiAt (l : List Char) : Bool :=
  (l.take 3).map Char.toLower == ['s', 'u', 'i']

def amtGo : Nat → List Char → List (List Char)
  | 0, _ => []
  | _ + 1, [] => []
  | fuel + 1, c :: rest =>
    if amtClassChar c then
      let grp := List.takeWhile amtClassChar (c :: rest)
      let afterWs := List.dropWhile isPyWs (List.dropWhile amtClassChar (c :: rest))
      if suiAt afterWs then
        grp :: amtGo fuel (afterWs.drop 3)
      else
        amtGo fuel rest
    else
      amtGo fuel rest

/-- Captured number groups of the amount pattern in a text chunk. -/
def amountScan (l : List Char) : List (List Char) := amtGo (l.length + 1) l

/-! ## scrape_suiscan embedding -/

/-- Python slice page_text[max(0, i-150) : i] (stakesui.py lines 145 and 146). -/
def windowBefore (text : List Char) (i : Nat) : List Char :=
  (text.drop (i - 150)).take (i - (i - 150))

/-- Python slice page_text[max(0, i-50) : i] (stakesui.py line 160). -/
def snippetBefore (text : List Char) (i : Nat) : List Char :=
  (text.drop (i - 50)).take (i - (i - 50))

/-- Generic form of the per-occurrence loop: walk positions in order; at the
first position whose group list is nonempty, return its last group. -/
def searchGroups (f : Nat → List (List Char)) : List Nat → Option (List Char)
  | [] => none
  | i :: is =>
    match (f i).getLast? with
    | some g => some g
    | none => searchGroups f is

/-- The per-occurrence loop of stakesui.py lines 143 to 157: walk the keyword
occurrence positions in order; at the first position whose preceding window
has amount matches, return the last captured group of that window. -/
def searchLoop (text : List Char) (idxs : List Nat) : Option (List Char) :=
  searchGroups (fun i => amountScan (windowBefore text i)) idxs

/-- Outcome of the external effects of one scrape_suiscan call: whether
driver.get raised, whether anything inside the try block raised (carrying
str(e)), and the text of the finally rendered page
(soup.get_text(separator="  ") of driver.page_source). -/
structure ScrapeEnv where
  getFails : Bool
  bodyExc : Option String
  pageText : String

/-- The per-row result dictionary of scrape_suiscan.  amountCol is the value
stored under the key Amount to '<kw>'; it is none exactly when the early
network-error return omits that key. -/
structure ScrapeResult where
  txHash : String
  amountCol : Option String
  status : String
  notes : String
deriving DecidableEq

/-- Embedding of scrape_suiscan (stakesui.py lines 93 to 167).  Screenshots
are display-only in the source (they never enter the result dictionary) and
are omitted.  The browser interactions (waits, coordinate clicks) only
influence which page text the environment finally exposes. -/
def scrape_suiscan (env : ScrapeEnv) (tx_hash target_keyword : String) : ScrapeResult :=
  if env.getFails then
    { txHash := tx_hash, amountCol := none,
      status := "Network Error", notes := "Could not reach URL" }
  else
    match env.bodyExc with
    | some e =>
      { txHash := tx_hash, amountCol := some "Not Found", status := "Error", notes := e }
    | none =>
      let pt := env.pageText.data
      match occCI target_keyword.data pt with
      | [] =>
        { txHash := tx_hash, amountCol := some "Not Found", status := "Processed",
          notes := "Keyword '" ++ target_keyword ++ "' not found (List collapsed?)" }
      | i0 :: rest =>
        match searchLoop pt (i0 :: rest) with
        | some g =>
          { txHash := tx_hash, amountCol := some (String.mk g),
            status := "Processed", notes := "Success" }
        | none =>
          { txHash := tx_hash, amountCol := some "Not Found", status := "Processed",
            notes := "Found '" ++ target_keyword ++ "' but amount not linked. Context: '..."
              ++ String.mk (snippetBefore pt i0) ++ "...'" }

/-! ## Main extraction loop embedding (stakesui.py lines 210 to 231) -/

/-- The body of the for-loop over df.iterrows(): row index i fetches the
stripped cell and appends the scrape result.  The oracle gives each row's
external outcome. -/
def runExtGo (oracle : Nat → ScrapeEnv) (kw : String) : Nat → List String → List ScrapeResult
  | _, [] => []
  | i, c :: rest =>
    scrape_suiscan (oracle i) (pyStrip c) kw :: runExtGo oracle kw (i + 1) rest

/-- The whole extraction run: one result row per input cell, in input order.
Cells are the str() renderings of the chosen hash column. -/
def runExtraction (oracle : Nat → ScrapeEnv) (cells : List String) (kw : String) : List ScrapeResult :=
  runExtGo oracle kw 0 cells

/-! ## UI gating embedding (stakesui.py lines 173 to 244) -/

/-- Observable actions of the Streamlit script, in program order. -/
inductive UIEvent where
  | errorMsg (m : String)
  | stopRun
  | infoMsg (m : String)
  | browserStart
  | successMsg (m : String)
  | fetchTx (tx : String)
deriving DecidableEq

/-- The Start Extraction button handler (stakesui.py lines 195 to 244):
an empty keyword is rejected before the browser is started; otherwise the
browser starts and, if it came up, every row is fetched. -/
def extractionClick (kw : String) (cells : List String) (driverOk : Bool) : List UIEvent :=
  if kw = "" then
    [UIEvent.errorMsg "Please enter a keyword."]
  else
    UIEvent.infoMsg "Starting Browser Engine..." :: UIEvent.browserStart ::
      (if driverOk then
        UIEvent.successMsg "Browser Active!" ::
          cells.map (fun c => UIEvent.fetchTx (pyStrip c)) ++ [UIEvent.successMsg "Done!"]
      else
        [UIEvent.errorMsg "Browser Error: Could not start Chrome. Check logs."])

/-- The script from file upload onwards: an unreadable file shows an error
and stops; otherwise the handler runs when the button is clicked. -/
def appRun (fileRead : Option (List String)) (kw : String) (clicked driverOk : Bool) : List UIEvent :=
  match fileRead with
  | none => [UIEvent.errorMsg "Error reading file", UIEvent.stopRun]
  | some cells => if clicked then extractionClick kw cells driverOk else []

/-! ## RPC-based iteration, modelled from the spec

The repository's later, RPC-based iteration (validator directory,
transaction classifier, batch orchestrator) is described by the
specification but its source file is not in the tree; the definitions
below are modelled from the spec's words. -/

/-- Modelled from the spec: one emitted event of a TransactionRecord, with a
possibly absent validator-address field and a possibly absent unsigned stake
amount in base units (missing RPC-iteration source). -/
structure SuiEvent where
  typeTag : String
  validatorAddress : Option String
  stakeAmount : Option Nat
deriving DecidableEq

/-- Modelled from the spec: one balance change, with the address-type owner
(absent for object-type or shared owners) and a signed base-unit amount
(missing RPC-iteration source). -/
structure BalanceChange where
  addressOwner : Option String
  amount : Int
deriving DecidableEq

/-- Modelled from the spec: the raw structured result of fetching one
transaction (missing RPC-iteration source). -/
structure TransactionRecord where
  events : List SuiEvent
  balanceChanges : List BalanceChange
  timestampMs : Option Nat
deriving DecidableEq

/-- Modelled from the spec: the validator directory, a mapping from
lower-cased address to display name (missing RPC-iteration source). -/
abbrev Directory := List (String × String)

/-- Modelled from the spec: directory lookup of a raw address, keyed by its
lower-cased form (missing RPC-iteration source). -/
def dirLookup (d : Directory) (addr : String) : Option String :=
  (d.find? (fun p => p.1 == lowerS addr)).map Prod.snd

/-- Modelled from the spec: resolve an address to a name, labelling unknown
addresses Unknown with the first 6 characters of the raw address shown
(missing RPC-iteration source). -/
def resolveName (d : Directory) (addr : String) : String :=
  (dirLookup d addr).getD ("Unknown (" ++ String.mk (addr.data.take 6) ++ ")")

/-- Modelled from the spec: the case-insensitive substring test of the
target keyword against a resolved name (missing RPC-iteration source). -/
def kwMatchName (kw name : String) : Bool :=
  substrB (lowerL kw.data) (lowerL name.data)

/-- Modelled from the spec: result of classifying one transaction, with the
display-unit amount (base units over 10^9) kept as an exact rational
(missing RPC-iteration source). -/
structure ClassificationResult where
  amountDisplay : Option Rat
  note : String
  matched : Bool
deriving DecidableEq

/-- Modelled from the spec: decimal-safe conversion from base units to
display units, value / 10^9, exact rational arithmetic, never binary
floating point (missing RPC-iteration source). -/
def suiToDisplay (v : Int) : Rat := (v : Rat) / (10 ^ 9 : Rat)

/-- Modelled from the spec: classifier step 1, the stake-event scan.  Events
are walked in order; structural presence of the validator-address and amount
fields is the signal; a keyword match returns immediately with the negated
display amount, non-matching events with both fields are retained as
fallback candidates (missing RPC-iteration source). -/
def scanStakeEvents (d : Directory) (kw : String) :
    List SuiEvent → ClassificationResult ⊕ List (Nat × String)
  | [] => Sum.inr []
  | e :: rest =>
    match e.validatorAddress, e.stakeAmount with
    | some addr, some amt =>
      let name := resolveName d addr
      if kwMatchName kw name then
        Sum.inl ⟨some (-(suiToDisplay (amt : Int))), "Staked to " ++ name, true⟩
      else
        match scanStakeEvents d kw rest with
        | Sum.inl r => Sum.inl r
        | Sum.inr cs => Sum.inr ((amt, name) :: cs)
    | _, _ => scanStakeEvents d kw rest

/-- Modelled from the spec: classifier step 2, the balance-change scan over
address-type owners with negative signed amounts (missing RPC-iteration
source). -/
def scanBalanceChanges (d : Directory) (kw : String) :
    List BalanceChange → Option ClassificationResult
  | [] => none
  | c :: rest =>
    match c.addressOwner with
    | some addr =>
      if c.amount < 0 then
        let name := resolveName d addr
        if kwMatchName kw name then
          some ⟨some (suiToDisplay c.amount), "Balance change at " ++ name, true⟩
        else scanBalanceChanges d kw rest
      else scanBalanceChanges d kw rest
    | none => scanBalanceChanges d kw rest

/-- Modelled from the spec: the transaction classifier, steps 1 to 4 in
order with first-match-wins (missing RPC-iteration source). -/
def classify (rec : TransactionRecord) (d : Directory) (kw : String) : ClassificationResult :=
  match scanStakeEvents d kw rec.events with
  | Sum.inl r => r
  | Sum.inr cands =>
    match scanBalanceChanges d kw rec.balanceChanges with
    | some r => r
    | none =>
      match cands with
      | (amt, name) :: _ =>
        ⟨some (-(suiToDisplay (amt : Int))), "Low confidence: staked to " ++ name, false⟩
      | [] => ⟨none, "No event linked to keyword '" ++ kw ++ "'", false⟩

/-! ## Batch orchestrator, modelled from the spec -/

def chunksGo (bs : Nat) : Nat → List String → List (List String)
  | 0, _ => []
  | _ + 1, [] => []
  | fuel + 1, a :: rest =>
    ((a :: rest).take (max bs 1)) :: chunksGo bs fuel ((a :: rest).drop (max bs 1))

/-- Modelled from the spec: partition of the identifier list into
consecutive chunks of at most batchSize (missing RPC-iteration source). -/
def chunksOf (bs : Nat) (l : List String) : List (List String) := chunksGo bs l.length l

/-- Modelled from the spec: the note of a placeholder row for an identifier
whose chunk call failed or that the node dropped (missing RPC-iteration
source). -/
def batchErrorNote : String := "Batch Error: transaction data unavailable"

/-- Modelled from the spec: one output row, aligned to one input
identifier (missing RPC-iteration source). -/
structure ExtractionRow where
  txId : String
  amountDisplay : Option Rat
  note : String
deriving DecidableEq

/-- Modelled from the spec: place one identifier's row by identifier lookup
into the chunk response; a missing record gives the batch-error placeholder
(missing RPC-iteration source). -/
def rowFor (d : Directory) (kw : String) (lookup : String → Option TransactionRecord)
    (id : String) : ExtractionRow :=
  match lookup id with
  | some rec => ⟨id, (classify rec d kw).amountDisplay, (classify rec d kw).note⟩
  | none => ⟨id, none, batchErrorNote⟩

/-- Modelled from the spec: a failed chunk call behaves as a lookup with
every identifier missing (missing RPC-iteration source). -/
def lookupOf (r : Option (String → Option TransactionRecord)) :
    String → Option TransactionRecord :=
  match r with
  | some f => f
  | none => fun _ => none

/-- Modelled from the spec: the batch orchestrator run: chunk the
identifiers, issue one multi-get per chunk, and place every row by
identifier lookup, in input order (missing RPC-iteration source). -/
def runOrch (fetchBatch : List String → Option (String → Option TransactionRecord))
    (d : Directory) (kw : String) (bs : Nat) (ids : List String) : List ExtractionRow :=
  ((chunksOf bs ids).map
    (fun chunk => chunk.map (rowFor d kw (lookupOf (fetchBatch chunk))))).flatten

/-! ## Concrete fixtures used by the witnesses -/

/-- A record with one field-less event and one positive balance change:
nothing for the classifier to match. -/
def c6rec : TransactionRecord :=
  ⟨[⟨"ev", none, some 7⟩], [⟨some "0xaa", 3⟩], none⟩

def c6dir : Directory := [("0xaa", "Nansen")]

/-- Twenty-five identifiers for the chunking scenario. -/
def c8ids : List String :=
  ["h01", "h02", "h03", "h04", "h05", "h06", "h07", "h08", "h09", "h10",
   "h11", "h12", "h13", "h14", "h15", "h16", "h17", "h18", "h19", "h20",
   "h21", "h22", "h23", "h24", "h25"]

/-- An empty transaction record. -/
def c8rec : TransactionRecord := ⟨[], [], none⟩

/-- A chunk lookup answering every identifier with the empty record. -/
def c8f : String → Option TransactionRecord := fun _ => some c8rec

/-- A batch fetcher whose second chunk (the one starting at h11) fails. -/
def c8fetch : List String → Option (String → Option TransactionRecord) :=
  fun chunk => if chunk.head? = some "h11" then none else some c8f

/-- A page whose text links an amount to the keyword. -/
def c10env : ScrapeEnv := ⟨false, none, "12.5 SUI staked with Nansen"⟩

/-! ## Helper lemmas -/

lemma isPrefixOf_nil_right (pat : List Char) : pat.isPrefixOf ([] : List Char) = pat.isEmpty := by
  cases pat <;> rfl

lemma occGo_ne_nil (pat : List Char) :
    ∀ fuel (l : List Char) (i : Nat), l.length < fuel →
      (occGo pat fuel l i ≠ [] ↔ ∃ n, pat.isPrefixOf (l.drop n) = true) := by
  intro fuel
  induction fuel with
  | zero => intro l i h; omega
  | succ f ih =>
    intro l i h
    cases l with
    | nil =>
      simp only [occGo, List.drop_nil, isPrefixOf_nil_right]
      cases hp : pat.isEmpty <;> simp [hp]
    | cons c rest =>
      by_cases hp : pat.isPrefixOf (c :: rest) = true
      · simp only [occGo, hp, if_true]
        constructor
        · intro _; exact ⟨0, by rw [List.drop_zero]; exact hp⟩
        · intro _; simp
      · have hp' : pat.isPrefixOf (c :: rest) = false := by
          cases hx : pat.isPrefixOf (c :: rest)
          · rfl
          · exact absurd hx hp
        simp only [occGo, hp', Bool.false_eq_true, if_false]
        have hlen : rest.length < f := by simp at h; omega
        rw [ih rest (i + 1) hlen]
        constructor
        · rintro ⟨n, hn⟩
          exact ⟨n + 1, by rw [List.drop_succ_cons]; exact hn⟩
        · rintro ⟨n, hn⟩
          cases n with
          | zero => rw [List.drop_zero] at hn; exact absurd hn hp
          | succ m => rw [List.drop_succ_cons] at hn; exact ⟨m, hn⟩

lemma occ_ne_nil (pat l : List Char) :
    occ pat l 0 ≠ [] ↔ ∃ n, pat.isPrefixOf (l.drop n) = true :=
  occGo_ne_nil pat (l.length + 1) l 0 (by omega)

lemma substrB_iff (pat hay : List Char) :
    substrB pat hay = true ↔ ∃ n, pat.isPrefixOf (hay.drop n) = true := by
  unfold substrB
  rw [List.any_eq_true]
  constructor
  · rintro ⟨n, _, hn⟩; exact ⟨n, hn⟩
  · rintro ⟨n, hn⟩
    by_cases hle : n ≤ hay.length
    · exact ⟨n, List.mem_range.mpr (by omega), hn⟩
    · refine ⟨hay.length, List.mem_range.mpr (by omega), ?_⟩
      have h1 : hay.drop n = [] := List.drop_eq_nil_of_le (by omega)
      have h2 : hay.drop hay.length = [] := List.drop_eq_nil_of_le le_rfl
      rw [h2, ← h1]
      exact hn

lemma kwFound_eq_pageHasKeyword (kw text : String) :
    kwFound kw text = pageHasKeyword kw text := by
  unfold kwFound pageHasKeyword occCI
  have h1 := occ_ne_nil (lowerL kw.data) (lowerL text.data)
  have h2 := substrB_iff (lowerL kw.data) (lowerL text.data)
  cases ha : occ (lowerL kw.data) (lowerL text.data) 0 with
  | nil =>
    cases hb : substrB (lowerL kw.data) (lowerL text.data)
    · simp
    · exfalso
      exact (h1.mpr (h2.mp hb)) ha
  | cons x xs =>
    cases hb : substrB (lowerL kw.data) (lowerL text.data)
    · exfalso
      have := h2.mpr (h1.mp (by rw [ha]; simp))
      rw [hb] at this
      exact Bool.false_ne_true this
    · simp

lemma scrape_txHash (env : ScrapeEnv) (tx kw : String) :
    (scrape_suiscan env tx kw).txHash = tx := by
  unfold scrape_suiscan
  rcases env with ⟨gf, be, pt⟩
  cases gf
  · cases be
    · cases hocc : occCI kw.data pt.data with
      | nil => simp [hocc]
      | cons i0 rest =>
        cases hsl : searchLoop pt.data (i0 :: rest) <;> simp [hocc, hsl]
    · simp
  · simp

lemma scrape_status_cases (env : ScrapeEnv) (tx kw : String) :
    (scrape_suiscan env tx kw).status = "Network Error" ∨
    (scrape_suiscan env tx kw).status = "Error" ∨
    (scrape_suiscan env tx kw).status = "Processed" := by
  unfold scrape_suiscan
  rcases env with ⟨gf, be, pt⟩
  cases gf
  · cases be
    · cases hocc : occCI kw.data pt.data with
      | nil => simp [hocc]
      | cons i0 rest =>
        cases hsl : searchLoop pt.data (i0 :: rest) <;> simp [hocc, hsl]
    · simp
  · simp

lemma scrape_network_error (env : ScrapeEnv) (tx kw : String) (h : env.getFails = true) :
    (scrape_suiscan env tx kw).status = "Network Error" ∧
    (scrape_suiscan env tx kw).notes = "Could not reach URL" := by
  unfold scrape_suiscan
  rw [h]
  simp

lemma scrape_body_exc (env : ScrapeEnv) (tx kw e : String)
    (h1 : env.getFails = false) (h2 : env.bodyExc = some e) :
    (scrape_suiscan env tx kw).status = "Error" ∧ (scrape_suiscan env tx kw).notes = e := by
  unfold scrape_suiscan
  rw [h1, h2]
  simp

lemma scrape_ok (env : ScrapeEnv) (tx kw : String)
    (h1 : env.getFails = false) (h2 : env.bodyExc = none) :
    (scrape_suiscan env tx kw).status = "Processed" ∧
    ((scrape_suiscan env tx kw).amountCol).isSome = true := by
  unfold scrape_suiscan
  rw [h1, h2]
  cases hocc : occCI kw.data env.pageText.data with
  | nil => simp [hocc]
  | cons i0 rest =>
    cases hsl : searchLoop env.pageText.data (i0 :: rest) <;> simp [hocc, hsl]

lemma runExtGo_length (oracle : Nat → ScrapeEnv) (kw : String) :
    ∀ (cells : List String) (j : Nat), (runExtGo oracle kw j cells).length = cells.length := by
  intro cells
  induction cells with
  | nil => intro j; rfl
  | cons c rest ih => intro j; simp [runExtGo, ih]

lemma runExtGo_getElem? (oracle : Nat → ScrapeEnv) (kw : String) :
    ∀ (cells : List String) (j i : Nat),
      (runExtGo oracle kw j cells)[i]? =
        (cells[i]?).map (fun c => scrape_suiscan (oracle (j + i)) (pyStrip c) kw) := by
  intro cells
  induction cells with
  | nil => intro j i; simp [runExtGo]
  | cons c rest ih =>
    intro j i
    cases i with
    | zero => simp [runExtGo]
    | succ n =>
      have harith : j + 1 + n = j + (n + 1) := by omega
      simp only [runExtGo, List.getElem?_cons_succ]
      rw [ih (j + 1) n, harith]

lemma head?_dropWhile_not (p : Char → Bool) :
    ∀ (l : List Char) (c : Char), (l.dropWhile p).head? = some c → p c = false := by
  intro l
  induction l with
  | nil => intro c h; simp [List.dropWhile] at h
  | cons a rest ih =>
    intro c h
    by_cases hp : p a = true
    · rw [List.dropWhile_cons_of_pos hp] at h
      exact ih c h
    · have hp' : p a = false := by
        cases hx : p a
        · rfl
        · exact absurd hx hp
      rw [List.dropWhile_cons_of_neg (by simp [hp'])] at h
      simp at h
      rw [← h]
      exact hp'

lemma takeWhile_all (p : Char → Bool) (l : List Char) :
    ∀ c ∈ l.takeWhile p, p c = true := fun _ hc => List.mem_takeWhile_imp hc

lemma pyStrip_decomp (s : String) :
    ∃ pre suf : List Char,
      s.data = pre ++ (pyStrip s).data ++ suf ∧
      (∀ c ∈ pre, isPyWs c = true) ∧ (∀ c ∈ suf, isPyWs c = true) ∧
      (∀ c, ((pyStrip s).data).head? = some c → isPyWs c = false) ∧
      (∀ c, ((pyStrip s).data).getLast? = some c → isPyWs c = false) := by
  set l := s.data with hl
  set m := l.dropWhile isPyWs with hm
  have hsplitL : l = l.takeWhile isPyWs ++ m := (List.takeWhile_append_dropWhile isPyWs l).symm
  set r := (m.reverse.dropWhile isPyWs).reverse with hr
  have hdata : (pyStrip s).data = r := rfl
  have hsplitR : m = r ++ (m.reverse.takeWhile isPyWs).reverse := by
    have h1 : m.reverse = m.reverse.takeWhile isPyWs ++ m.reverse.dropWhile isPyWs :=
      (List.takeWhile_append_dropWhile isPyWs m.reverse).symm
    calc m = m.reverse.reverse := (List.reverse_reverse m).symm
    _ = (m.reverse.takeWhile isPyWs ++ m.reverse.dropWhile isPyWs).reverse := by rw [← h1]
    _ = r ++ (m.reverse.takeWhile isPyWs).reverse := by rw [List.reverse_append, hr]
  refine ⟨l.takeWhile isPyWs, (m.reverse.takeWhile isPyWs).reverse, ?_, ?_, ?_, ?_, ?_⟩
  · rw [hdata, List.append_assoc, ← hsplitR]
    exact hsplitL
  · exact takeWhile_all isPyWs l
  · intro c hc
    rw [List.mem_reverse] at hc
    exact takeWhile_all isPyWs m.reverse c hc
  · intro c hc
    rw [hdata] at hc
    by_cases hrn : r = []
    · rw [hrn] at hc; simp at hc
    · have hhead : m.head? = some c := by
        rw [hsplitR, List.head?_append_of_ne_nil _ hrn]
        exact hc
      exact head?_dropWhile_not isPyWs l c (by rw [← hm]; exact hhead)
  · intro c hc
    rw [hdata, hr, List.getLast?_reverse] at hc
    exact head?_dropWhile_not isPyWs m.reverse c hc

lemma getLast?_some_of_ne_nil (l : List (List Char)) (h : l ≠ []) :
    ∃ g, l.getLast? = some g := by
  cases l with
  | nil => exact absurd rfl h
  | cons a as => exact ⟨(a :: as).getLast (by simp), List.getLast?_eq_getLast _ _⟩

lemma searchGroups_eq_find (f : Nat → List (List Char)) :
    ∀ idxs : List Nat,
      searchGroups f idxs =
        match idxs.find? (fun j => !(f j).isEmpty) with
        | some i => (f i).getLast?
        | none => none := by
  intro idxs
  induction idxs with
  | nil => rfl
  | cons i is ih =>
    rw [List.find?_cons]
    by_cases hne : (f i).isEmpty = true
    · have hnil : f i = [] := by
        cases hx : f i
        · rfl
        · rw [hx] at hne; simp at hne
      rw [searchGroups, hnil]
      simp only [hne, Bool.not_true, List.getLast?_nil]
      exact ih
    · have hne' : (f i).isEmpty = false := by
        cases hx : (f i).isEmpty
        · rfl
        · exact absurd hx hne
      obtain ⟨g, hg⟩ := getLast?_some_of_ne_nil (f i)
        (by intro hx; rw [hx] at hne'; simp at hne')
      rw [searchGroups, hg]
      simp only [hne', Bool.not_false]
      exact hg.symm

lemma searchLoop_eq_find (text : List Char) (idxs : List Nat) :
    searchLoop text idxs =
      match idxs.find? (fun j => !(amountScan (windowBefore text j)).isEmpty) with
      | some i => (amountScan (windowBefore text i)).getLast?
      | none => none :=
  searchGroups_eq_find (fun i => amountScan (windowBefore text i)) idxs

lemma scanStake_no_fields (d : Directory) (kw : String) :
    ∀ evs : List SuiEvent,
      (∀ e ∈ evs, e.validatorAddress = none ∨ e.stakeAmount = none) →
      scanStakeEvents d kw evs = Sum.inr [] := by
  intro evs
  induction evs with
  | nil => intro _; rfl
  | cons e rest ih =>
    intro h
    have he := h e (by simp)
    have hr := ih (fun x hx => h x (by simp [hx]))
    rcases e with ⟨t, va, sa⟩
    cases va <;> cases sa <;> simp_all [scanStakeEvents]

lemma scanBC_no_match (d : Directory) (kw : String) :
    ∀ bcs : List BalanceChange,
      (∀ c ∈ bcs, ∀ a, c.addressOwner = some a → c.amount < 0 →
        kwMatchName kw (resolveName d a) = false) →
      scanBalanceChanges d kw bcs = none := by
  intro bcs
  induction bcs with
  | nil => intro _; rfl
  | cons c rest ih =>
    intro h
    have hr := ih (fun x hx => h x (by simp [hx]))
    rcases c with ⟨ao, amt⟩
    cases ao with
    | none => simp [scanBalanceChanges, hr]
    | some a =>
      by_cases hlt : amt < 0
      · have hm := h ⟨some a, amt⟩ (by simp) a rfl hlt
        simp only [scanBalanceChanges]
        rw [if_pos hlt, if_neg (by simp [hm])]
        exact hr
      · simp only [scanBalanceChanges]
        rw [if_neg hlt]
        exact hr

lemma chunksGo_congr (bs : Nat) :
    ∀ f1 f2 (l : List String), l.length ≤ f1 → l.length ≤ f2 →
      chunksGo bs f1 l = chunksGo bs f2 l := by
  intro f1
  induction f1 with
  | zero =>
    intro f2 l h1 _
    have hnil : l = [] := List.length_eq_zero.mp (by omega)
    subst hnil
    cases f2 <;> rfl
  | succ f ih =>
    intro f2 l h1 h2
    cases l with
    | nil => cases f2 <;> rfl
    | cons a rest =>
      cases f2 with
      | zero => simp at h2
      | succ f2' =>
        simp only [chunksGo]
        congr 1
        simp only [List.length_cons] at h1 h2
        generalize hM : max bs 1 = M
        have hmax : 1 ≤ M := by rw [← hM]; exact le_max_right bs 1
        apply ih
        · simp only [List.length_drop, List.length_cons]
          omega
        · simp only [List.length_drop, List.length_cons]
          omega

lemma chunksOf_cons (bs : Nat) (l : List String) (hl : l ≠ []) :
    chunksOf bs l = l.take (max bs 1) :: chunksOf bs (l.drop (max bs 1)) := by
  cases l with
  | nil => exact absurd rfl hl
  | cons a rest =>
    unfold chunksOf
    simp only [List.length_cons, chunksGo]
    congr 1
    generalize hM : max bs 1 = M
    have hmax : 1 ≤ M := by rw [← hM]; exact le_max_right bs 1
    apply chunksGo_congr
    · simp only [List.length_drop, List.length_cons]
      omega
    · exact le_rfl

lemma rowFor_none (d : Directory) (kw : String) (id : String) :
    rowFor d kw (fun _ => none) id = ⟨id, none, batchErrorNote⟩ := rfl

set_option maxRecDepth 4096 in
lemma scrape_search_some (env : ScrapeEnv) (tx kw : String) (i0 : Nat) (rest : List Nat)
    (hget : env.getFails = false) (hexc : env.bodyExc = none)
    (hocc : occCI kw.data env.pageText.data = i0 :: rest)
    (g : List Char)
    (hsl : searchLoop env.pageText.data (i0 :: rest) = some g) :
    scrape_suiscan env tx kw = ⟨tx, some (String.mk g), "Processed", "Success"⟩ := by
  unfold scrape_suiscan
  rw [hget]
  simp only [Bool.false_eq_true, if_false, hexc, hocc]
  rw [hsl]

set_option maxRecDepth 4096 in
lemma scrape_search_none (env : ScrapeEnv) (tx kw : String) (i0 : Nat) (rest : List Nat)
    (hget : env.getFails = false) (hexc : env.bodyExc = none)
    (hocc : occCI kw.data env.pageText.data = i0 :: rest)
    (hsl : searchLoop env.pageText.data (i0 :: rest) = none) :
    scrape_suiscan env tx kw =
      ⟨tx, some "Not Found", "Processed",
        "Found '" ++ kw ++ "' but amount not linked. Context: '..." ++
          String.mk (snippetBefore env.pageText.data i0) ++ "...'"⟩ := by
  unfold scrape_suiscan
  rw [hget]
  simp only [Bool.false_eq_true, if_false, hexc, hocc]
  rw [hsl]

/-! ## Claim theorems -/

/-- Claim C1: for every input table of N rows the extraction run produces
exactly N result rows; row i of the output carries the identifier of input
row i (whitespace-stripped); failed rows carry explicit error markers in
their status field and are never dropped. -/
theorem run_preserves_rows (oracle : Nat → ScrapeEnv) (cells : List String) (kw : String)
    (i : Nat) (h : i < cells.length) :
    (runExtraction oracle cells kw).length = cells.length ∧
    ∃ row, (runExtraction oracle cells kw)[i]? = some row ∧
      row.txHash = pyStrip (cells.getD i "") ∧
      ((oracle i).getFails = true → row.status = "Network Error") ∧
      (row.status = "Network Error" ∨ row.status = "Error" ∨ row.status = "Processed") := by
  constructor
  · exact runExtGo_length oracle kw cells 0
  · have hget := runExtGo_getElem? oracle kw cells 0 i
    have hcell : cells[i]? = some (cells.getD i "") := by
      rw [List.getElem?_eq_getElem h, List.getD_eq_getElem cells "" h]
    rw [hcell] at hget
    refine ⟨scrape_suiscan (oracle i) (pyStrip (cells.getD i "")) kw, ?_, ?_, ?_, ?_⟩
    · rw [runExtraction, hget]
      simp
    · exact scrape_txHash _ _ _
    · intro hf
      exact (scrape_network_error _ _ _ hf).1
    · exact scrape_status_cases _ _ _

/-- Witness for C1 at a concrete two-row input where the second row's fetch
fails: both rows are present, aligned, and the failure is marked. -/
theorem run_preserves_rows_witness :
    (0 : Nat) < (["  0xAB ", "0xCD"] : List String).length ∧
    ((runExtraction (fun n => if n = 0 then ⟨false, none, "no keyword here"⟩
        else ⟨true, none, ""⟩) ["  0xAB ", "0xCD"] "Nansen").length = 2 ∧
      ∃ row, (runExtraction (fun n => if n = 0 then ⟨false, none, "no keyword here"⟩
        else ⟨true, none, ""⟩) ["  0xAB ", "0xCD"] "Nansen")[0]? = some row ∧
        row.txHash = pyStrip ((["  0xAB ", "0xCD"] : List String).getD 0 "") ∧
        (((fun n => if n = 0 then (⟨false, none, "no keyword here"⟩ : ScrapeEnv)
            else ⟨true, none, ""⟩) 0).getFails = true → row.status = "Network Error") ∧
        (row.status = "Network Error" ∨ row.status = "Error" ∨ row.status = "Processed")) :=
  ⟨by decide,
   run_preserves_rows (fun n => if n = 0 then ⟨false, none, "no keyword here"⟩
     else ⟨true, none, ""⟩) ["  0xAB ", "0xCD"] "Nansen" 0 (by decide)⟩

/-- Claim C2: scrape_suiscan is total on every environment outcome: it always
returns a result row carrying the requested hash; a failing page load is
captured as the Network Error status, an exception inside the body as the
Error status with the message in the notes, and otherwise the row is
Processed with the amount column present. -/
theorem scrape_never_raises (env : ScrapeEnv) (tx kw : String) :
    (scrape_suiscan env tx kw).txHash = tx ∧
    (env.getFails = true →
      (scrape_suiscan env tx kw).status = "Network Error" ∧
      (scrape_suiscan env tx kw).notes = "Could not reach URL") ∧
    (∀ e, env.getFails = false → env.bodyExc = some e →
      (scrape_suiscan env tx kw).status = "Error" ∧
      (scrape_suiscan env tx kw).notes = e) ∧
    (env.getFails = false → env.bodyExc = none →
      (scrape_suiscan env tx kw).status = "Processed" ∧
      ((scrape_suiscan env tx kw).amountCol).isSome = true) := by
  refine ⟨scrape_txHash env tx kw, ?_, ?_, ?_⟩
  · intro hf
    exact scrape_network_error env tx kw hf
  · intro e h1 h2
    exact scrape_body_exc env tx kw e h1 h2
  · intro h1 h2
    exact scrape_ok env tx kw h1 h2

/-- Witness for C2 at a concrete environment whose body raised an
exception: the row is returned with the message captured in the notes. -/
theorem scrape_never_raises_witness :
    (⟨false, some "TimeoutException", "x"⟩ : ScrapeEnv).getFails = false ∧
    (⟨false, some "TimeoutException", "x"⟩ : ScrapeEnv).bodyExc = some "TimeoutException" ∧
    (scrape_suiscan ⟨false, some "TimeoutException", "x"⟩ "0xAB" "Nansen").txHash = "0xAB" ∧
    (scrape_suiscan ⟨false, some "TimeoutException", "x"⟩ "0xAB" "Nansen").status = "Error" ∧
    (scrape_suiscan ⟨false, some "TimeoutException", "x"⟩ "0xAB" "Nansen").notes =
      "TimeoutException" :=
  ⟨rfl, rfl, (scrape_never_raises ⟨false, some "TimeoutException", "x"⟩ "0xAB" "Nansen").1,
   ((scrape_never_raises ⟨false, some "TimeoutException", "x"⟩ "0xAB" "Nansen").2.2.1
     "TimeoutException" rfl rfl).1,
   ((scrape_never_raises ⟨false, some "TimeoutException", "x"⟩ "0xAB" "Nansen").2.2.1
     "TimeoutException" rfl rfl).2⟩

/-- Claim C3: an empty keyword, or an unreadable uploaded file, is rejected
before any network activity: the event trace contains neither a browser
start nor any per-row fetch. -/
theorem empty_input_no_network (fileRead : Option (List String)) (kw : String)
    (clicked driverOk : Bool) (h : kw = "" ∨ fileRead = none) :
    UIEvent.browserStart ∉ appRun fileRead kw clicked driverOk ∧
    ∀ tx, UIEvent.fetchTx tx ∉ appRun fileRead kw clicked driverOk := by
  rcases h with h | h
  · subst h
    cases fileRead with
    | none => simp [appRun]
    | some cells =>
      cases clicked with
      | false => simp [appRun]
      | true => simp [appRun, extractionClick]
  · subst h
    simp [appRun]

/-- Witness for C3: with a readable file, a clicked button and a working
browser but an empty keyword, no browser start and no fetch happens. -/
theorem empty_input_no_network_witness :
    (("" : String) = "" ∨ (some ["0xAB"] : Option (List String)) = none) ∧
    (UIEvent.browserStart ∉ appRun (some ["0xAB"]) "" true true ∧
      ∀ tx, UIEvent.fetchTx tx ∉ appRun (some ["0xAB"]) "" true true) :=
  ⟨Or.inl rfl, empty_input_no_network (some ["0xAB"]) "" true true (Or.inl rfl)⟩

/-- Claim C4: keyword matching is a case-insensitive substring test: the
finditer-based occurrence check of the parsing stage and the substring check
of the pagination stage agree, and neither depends on the letter case of the
keyword or of the text it is matched against. -/
theorem keyword_match_case_insensitive (text kw t2 k2 : String)
    (ht : lowerL t2.data = lowerL text.data) (hk : lowerL k2.data = lowerL kw.data) :
    kwFound k2 t2 = kwFound kw text ∧
    pageHasKeyword k2 t2 = pageHasKeyword kw text ∧
    kwFound kw text = pageHasKeyword kw text := by
  refine ⟨?_, ?_, kwFound_eq_pageHasKeyword kw text⟩
  · unfold kwFound occCI
    rw [ht, hk]
  · unfold pageHasKeyword
    rw [ht, hk]

/-- Witness for C4 applying the theorem to case-variants of the same
keyword and text, checking the match outcome is unchanged. -/
theorem keyword_match_case_insensitive_witness :
    lowerL "Staked With NANSEN".data = lowerL "staked with nansen".data ∧
    lowerL "NanSen".data = lowerL "nansen".data ∧
    (kwFound "NanSen" "Staked With NANSEN" = kwFound "nansen" "staked with nansen" ∧
      pageHasKeyword "NanSen" "Staked With NANSEN" =
        pageHasKeyword "nansen" "staked with nansen" ∧
      kwFound "nansen" "staked with nansen" =
        pageHasKeyword "nansen" "staked with nansen") :=
  ⟨by decide, by decide,
   keyword_match_case_insensitive "staked with nansen" "nansen"
     "Staked With NANSEN" "NanSen" (by decide) (by decide)⟩

/-- Claim C9: the identifier used for row i's fetch is exactly the input
cell with leading and trailing whitespace removed and nothing else: the row
holds scrape_suiscan applied to pyStrip of the cell, and pyStrip only
removes a whitespace prefix and a whitespace suffix of the string. -/
theorem identifier_trim_only (oracle : Nat → ScrapeEnv) (cells : List String) (kw : String)
    (i : Nat) (h : i < cells.length) :
    ((runExtraction oracle cells kw)[i]? =
      some (scrape_suiscan (oracle i) (pyStrip (cells.getD i "")) kw)) ∧
    ∀ s : String, ∃ pre suf : List Char,
      s.data = pre ++ (pyStrip s).data ++ suf ∧
      (∀ c ∈ pre, isPyWs c = true) ∧ (∀ c ∈ suf, isPyWs c = true) ∧
      (∀ c, ((pyStrip s).data).head? = some c → isPyWs c = false) ∧
      (∀ c, ((pyStrip s).data).getLast? = some c → isPyWs c = false) := by
  constructor
  · have hget := runExtGo_getElem? oracle kw cells 0 i
    have hcell : cells[i]? = some (cells.getD i "") := by
      rw [List.getElem?_eq_getElem h, List.getD_eq_getElem cells "" h]
    rw [hcell] at hget
    rw [runExtraction, hget]
    simp
  · intro s
    exact pyStrip_decomp s

/-- Witness for C9 at a concrete cell with tab and space padding. -/
theorem identifier_trim_only_witness :
    (0 : Nat) < (["\t 0xFEED  "] : List String).length ∧
    (((runExtraction (fun _ => ⟨true, none, ""⟩) ["\t 0xFEED  "] "Nansen")[0]? =
      some (scrape_suiscan ((fun _ => (⟨true, none, ""⟩ : ScrapeEnv)) 0)
        (pyStrip ((["\t 0xFEED  "] : List String).getD 0 "")) "Nansen")) ∧
    ∀ s : String, ∃ pre suf : List Char,
      s.data = pre ++ (pyStrip s).data ++ suf ∧
      (∀ c ∈ pre, isPyWs c = true) ∧ (∀ c ∈ suf, isPyWs c = true) ∧
      (∀ c, ((pyStrip s).data).head? = some c → isPyWs c = false) ∧
      (∀ c, ((pyStrip s).data).getLast? = some c → isPyWs c = false)) :=
  ⟨by decide,
   identifier_trim_only (fun _ => ⟨true, none, ""⟩) ["\t 0xFEED  "] "Nansen" 0 (by decide)⟩

/-- Claim C5: when the first stake event of the record resolves to a name
matched by the keyword, classification returns matched with amount equal to
the negated display-unit conversion of the stake's base units, and a success
note naming the resolved target. -/
theorem classify_stake_outflow (tag addr : String) (amt : Nat) (rest : List SuiEvent)
    (bc : List BalanceChange) (ts : Option Nat) (d : Directory) (kw name : String)
    (hdir : dirLookup d addr = some name) (hm : kwMatchName kw name = true) :
    classify ⟨⟨tag, some addr, some amt⟩ :: rest, bc, ts⟩ d kw =
      ⟨some (-(suiToDisplay (amt : Int))), "Staked to " ++ name, true⟩ := by
  unfold classify
  have hres : resolveName d addr = name := by
    unfold resolveName
    rw [hdir]
    rfl
  simp only [scanStakeEvents, hres, hm, if_true]

/-- Witness for C5: a 5_000_000_000 base-unit stake to an address resolving
to Nansen, matched by the keyword nAnSen, yields exactly -5 display units
and a success note naming Nansen. -/
theorem classify_stake_outflow_witness :
    dirLookup [("0xabc12", "Nansen")] "0xABC12" = some "Nansen" ∧
    kwMatchName "nAnSen" "Nansen" = true ∧
    classify ⟨[⟨"StakingRequestEvent", some "0xABC12", some 5000000000⟩], [], none⟩
        [("0xabc12", "Nansen")] "nAnSen" =
      ⟨some (-5 : Rat), "Staked to Nansen", true⟩ := by
  refine ⟨by decide, by decide, ?_⟩
  rw [classify_stake_outflow "StakingRequestEvent" "0xABC12" 5000000000 [] [] none
    [("0xabc12", "Nansen")] "nAnSen" "Nansen" (by decide) (by decide)]
  have hconv : suiToDisplay ((5000000000 : Nat) : Int) = (5 : Rat) := by
    unfold suiToDisplay
    norm_num
  rw [hconv]
  rfl

/-- Claim C6: when no event carries the structural stake fields (so no
candidates are collected) and no balance change matches the keyword,
classification returns the well-formed not-found result: matched false,
amount absent, explanatory note; likewise the scraper's no-match branch
returns a Processed row with the amount column marked Not Found and an
explanatory note, not an error. -/
theorem classify_not_found_wellformed (rec : TransactionRecord) (d : Directory) (kw : String)
    (hev : ∀ e ∈ rec.events, e.validatorAddress = none ∨ e.stakeAmount = none)
    (hbc : ∀ c ∈ rec.balanceChanges, ∀ a, c.addressOwner = some a → c.amount < 0 →
      kwMatchName kw (resolveName d a) = false) :
    classify rec d kw = ⟨none, "No event linked to keyword '" ++ kw ++ "'", false⟩ ∧
    (∀ env tx, env.getFails = false → env.bodyExc = none →
      occCI kw.data env.pageText.data = [] →
      scrape_suiscan env tx kw =
        ⟨tx, some "Not Found", "Processed",
          "Keyword '" ++ kw ++ "' not found (List collapsed?)"⟩) := by
  constructor
  · unfold classify
    rw [scanStake_no_fields d kw rec.events hev, scanBC_no_match d kw rec.balanceChanges hbc]
  · intro env tx h1 h2 h3
    unfold scrape_suiscan
    rw [h1, h2]
    simp only [h3, Bool.false_eq_true, if_false]

/-- Witness for C6: a record whose only event lacks the validator-address
field and whose only balance change is a positive inflow, classified with
the keyword Coinbase, is reported not found; and a page without the keyword
gives the scraper's Not Found row. -/
theorem classify_not_found_wellformed_witness :
    (∀ e ∈ c6rec.events, e.validatorAddress = none ∨ e.stakeAmount = none) ∧
    (∀ c ∈ c6rec.balanceChanges, ∀ a, c.addressOwner = some a → c.amount < 0 →
      kwMatchName "Coinbase" (resolveName c6dir a) = false) ∧
    (classify c6rec c6dir "Coinbase" =
      ⟨none, "No event linked to keyword 'Coinbase'", false⟩ ∧
    (∀ env tx, env.getFails = false → env.bodyExc = none →
      occCI "Coinbase".data env.pageText.data = [] →
      scrape_suiscan env tx "Coinbase" =
        ⟨tx, some "Not Found", "Processed",
          "Keyword 'Coinbase' not found (List collapsed?)"⟩)) :=
  ⟨by decide, by decide,
   classify_not_found_wellformed c6rec c6dir "Coinbase" (by decide) (by decide)⟩

/-- Claim C7: base units convert to display units by exact rational division
by 10^9: one billion base units is exactly one display unit, and the
conversion is exact for every integer (no floating-point artifacts). -/
theorem display_conversion_exact :
    suiToDisplay 1000000000 = 1 ∧
    ∀ v : Int, suiToDisplay v * (10 ^ 9 : Rat) = (v : Rat) := by
  constructor
  · unfold suiToDisplay
    norm_num
  · intro v
    unfold suiToDisplay
    rw [div_mul_cancel₀]
    norm_num

/-- Claim C8: with batchSize 10 and 25 identifiers, fetching happens in
exactly 3 chunks of sizes 10, 10 and 5; when the second chunk's call
returns absent, its 10 rows all carry the batch-error note while the rows
of the first and third chunks retain their real classification results;
the output still has one row per identifier, in input order. -/
theorem orchestrator_chunks_and_batch_errors
    (ids : List String) (d : Directory) (kw : String)
    (fetch : List String → Option (String → Option TransactionRecord))
    (f1 f3 : String → Option TransactionRecord)
    (h25 : ids.length = 25)
    (hc1 : fetch (ids.take 10) = some f1)
    (hc2 : fetch ((ids.drop 10).take 10) = none)
    (hc3 : fetch (ids.drop 20) = some f3)
    (hf1 : ∀ id ∈ ids.take 10, (f1 id).isSome = true)
    (hf3 : ∀ id ∈ ids.drop 20, (f3 id).isSome = true) :
    (chunksOf 10 ids).map List.length = [10, 10, 5] ∧
    runOrch fetch d kw 10 ids =
      (ids.take 10).map (rowFor d kw f1) ++
      ((ids.drop 10).take 10).map (fun id => (⟨id, none, batchErrorNote⟩ : ExtractionRow)) ++
      (ids.drop 20).map (rowFor d kw f3) ∧
    (runOrch fetch d kw 10 ids).length = 25 ∧
    (∀ id ∈ ids.take 10, ∃ rec, f1 id = some rec ∧
      rowFor d kw f1 id =
        ⟨id, (classify rec d kw).amountDisplay, (classify rec d kw).note⟩) ∧
    (∀ id ∈ ids.drop 20, ∃ rec, f3 id = some rec ∧
      rowFor d kw f3 id =
        ⟨id, (classify rec d kw).amountDisplay, (classify rec d kw).note⟩) := by
  have hmax : max 10 1 = 10 := rfl
  have hne1 : ids ≠ [] := by
    intro hx
    rw [hx] at h25
    simp at h25
  have hd10 : (ids.drop 10).length = 15 := by
    rw [List.length_drop, h25]
  have hne2 : ids.drop 10 ≠ [] := by
    intro hx
    rw [hx] at hd10
    simp at hd10
  have hdd : (ids.drop 10).drop 10 = ids.drop 20 := by
    rw [List.drop_drop]
  have hd20 : (ids.drop 20).length = 5 := by
    rw [List.length_drop, h25]
  have hne3 : ids.drop 20 ≠ [] := by
    intro hx
    rw [hx] at hd20
    simp at hd20
  have hd30 : (ids.drop 20).drop 10 = [] := by
    rw [List.drop_drop]
    exact List.drop_eq_nil_of_le (by omega)
  have htk3 : (ids.drop 20).take 10 = ids.drop 20 :=
    List.take_of_length_le (by omega)
  have hchunks : chunksOf 10 ids =
      [ids.take 10, (ids.drop 10).take 10, ids.drop 20] := by
    rw [chunksOf_cons 10 ids hne1, hmax]
    rw [chunksOf_cons 10 (ids.drop 10) hne2, hmax, hdd]
    rw [chunksOf_cons 10 (ids.drop 20) hne3, hmax, hd30, htk3]
    rfl
  have hl1 : lookupOf (fetch (ids.take 10)) = f1 := by rw [hc1]; rfl
  have hl2 : rowFor d kw (lookupOf (fetch ((ids.drop 10).take 10))) =
      fun id => (⟨id, none, batchErrorNote⟩ : ExtractionRow) := by
    rw [hc2]
    funext id
    exact rowFor_none d kw id
  have hl3 : lookupOf (fetch (ids.drop 20)) = f3 := by rw [hc3]; rfl
  have hrun : runOrch fetch d kw 10 ids =
      (ids.take 10).map (rowFor d kw f1) ++
      ((ids.drop 10).take 10).map (fun id => (⟨id, none, batchErrorNote⟩ : ExtractionRow)) ++
      (ids.drop 20).map (rowFor d kw f3) := by
    unfold runOrch
    rw [hchunks]
    simp only [List.map_cons, List.map_nil, List.flatten_cons, List.flatten_nil,
      List.append_nil, hl1, hl2, hl3, List.append_assoc]
  refine ⟨?_, hrun, ?_, ?_, ?_⟩
  · rw [hchunks]
    simp only [List.map_cons, List.map_nil, List.length_take, List.length_drop, h25, hd10]
    rfl
  · rw [hrun]
    simp only [List.length_append, List.length_map, List.length_take, List.length_drop,
      h25, hd10]
    rfl
  · intro id hid
    cases hrec : f1 id with
    | none =>
      have := hf1 id hid
      rw [hrec] at this
      simp at this
    | some rec =>
      refine ⟨rec, rfl, ?_⟩
      unfold rowFor
      rw [hrec]
  · intro id hid
    cases hrec : f3 id with
    | none =>
      have := hf3 id hid
      rw [hrec] at this
      simp at this
    | some rec =>
      refine ⟨rec, rfl, ?_⟩
      unfold rowFor
      rw [hrec]

/-- Witness for C8 at the concrete 25-identifier list whose second chunk
fetch fails: extracts the conclusion at that input. -/
theorem orchestrator_chunks_and_batch_errors_witness :
    c8ids.length = 25 ∧
    c8fetch (c8ids.take 10) = some c8f ∧
    c8fetch ((c8ids.drop 10).take 10) = none ∧
    c8fetch (c8ids.drop 20) = some c8f ∧
    ((chunksOf 10 c8ids).map List.length = [10, 10, 5] ∧
      (runOrch c8fetch [] "Nansen" 10 c8ids).length = 25) :=
  ⟨rfl, rfl, rfl, rfl,
   (orchestrator_chunks_and_batch_errors c8ids [] "Nansen" c8fetch c8f c8f
     rfl rfl rfl rfl (fun _ _ => rfl) (fun _ _ => rfl)).1,
   (orchestrator_chunks_and_batch_errors c8ids [] "Nansen" c8fetch c8f c8f
     rfl rfl rfl rfl (fun _ _ => rfl) (fun _ _ => rfl)).2.2.1⟩


set_option maxRecDepth 8192 in
/-- Claim C10: when the keyword occurs in the page text, the scraper scans
the occurrences in order; at the first occurrence whose preceding
150-character window contains matches of the number-then-SUI pattern, it
reports the last such number of that window with a Success note; if no
occurrence has such a window, it reports the amount as Not Found with the
found-but-not-linked note carrying the 50-character context snippet. -/
theorem amount_window_scan (env : ScrapeEnv) (tx kw : String) (i0 : Nat) (rest : List Nat)
    (hget : env.getFails = false) (hexc : env.bodyExc = none)
    (hocc : occCI kw.data env.pageText.data = i0 :: rest) :
    (∀ i, (i0 :: rest).find?
        (fun j => !(amountScan (windowBefore env.pageText.data j)).isEmpty) = some i →
      ∃ g, (amountScan (windowBefore env.pageText.data i)).getLast? = some g ∧
        scrape_suiscan env tx kw = ⟨tx, some (String.mk g), "Processed", "Success"⟩) ∧
    ((i0 :: rest).find?
        (fun j => !(amountScan (windowBefore env.pageText.data j)).isEmpty) = none →
      scrape_suiscan env tx kw =
        ⟨tx, some "Not Found", "Processed",
          "Found '" ++ kw ++ "' but amount not linked. Context: '..." ++
            String.mk (snippetBefore env.pageText.data i0) ++ "...'"⟩) := by
  have hs := searchLoop_eq_find env.pageText.data (i0 :: rest)
  constructor
  · intro i hfind
    rw [hfind] at hs
    have hpred := List.find?_some hfind
    simp only [Bool.not_eq_true'] at hpred
    have hne : amountScan (windowBefore env.pageText.data i) ≠ [] := by
      intro hx
      rw [hx] at hpred
      simp at hpred
    obtain ⟨g, hg⟩ := getLast?_some_of_ne_nil _ hne
    have hs2 : searchLoop env.pageText.data (i0 :: rest) =
        (amountScan (windowBefore env.pageText.data i)).getLast? := hs
    rw [hg] at hs2
    exact ⟨g, hg, scrape_search_some env tx kw i0 rest hget hexc hocc g hs2⟩
  · intro hfind
    rw [hfind] at hs
    have hs2 : searchLoop env.pageText.data (i0 :: rest) = none := hs
    exact scrape_search_none env tx kw i0 rest hget hexc hocc hs2

/-- Witness for C10 on a page where the first keyword occurrence has the
amount 12.5 SUI inside its preceding window. -/
theorem amount_window_scan_witness :
    c10env.getFails = false ∧ c10env.bodyExc = none ∧
    occCI "Nansen".data c10env.pageText.data = 21 :: [] ∧
    (21 :: ([] : List Nat)).find?
      (fun j => !(amountScan (windowBefore c10env.pageText.data j)).isEmpty) = some 21 ∧
    ∃ g, (amountScan (windowBefore c10env.pageText.data 21)).getLast? = some g ∧
      scrape_suiscan c10env "0xAB" "Nansen" =
        ⟨"0xAB", some (String.mk g), "Processed", "Success"⟩ :=
  ⟨rfl, rfl, by decide, by decide,
   (amount_window_scan c10env "0xAB" "Nansen" 21 [] rfl rfl (by decide)).1 21 (by decide)⟩
